import Mathlib

/-
Shallow embedding of the aws-crypto-streaming repository (producer-side Tiingo
client and consumer-side trade processor), together with proofs settling the
frozen specification claims.

Python strings are modelled as lists of characters; machine floats that only
ever carry decimal literals are modelled as rationals; fallible Python code
(code that can raise) returns Option or an explicit result type.
-/

/-- Boolean test that the first list is a prefix of the second (the scan step
of Python `str.replace`). -/
def startsWithL : List Char → List Char → Bool
  | [], _ => true
  | _ :: _, [] => false
  | p :: ps, c :: cs => p == c && startsWithL ps cs

/-- Bounded-fuel model of Python `str.replace(old, new)` (replace every
non-overlapping occurrence, scanning left to right).  The fuel argument makes
the recursion structural; `pyReplace` below instantiates it with the length of
the subject string, which is always enough because each step consumes at least
one character.  (The `old` pattern is never empty at any call site.) -/
def pyReplaceFuel (pat repl : List Char) : Nat → List Char → List Char
  | 0, s => s
  | _ + 1, [] => []
  | n + 1, c :: rest =>
    if startsWithL pat (c :: rest) && !pat.isEmpty then
      repl ++ pyReplaceFuel pat repl n ((c :: rest).drop pat.length)
    else
      c :: pyReplaceFuel pat repl n rest

/-- Python `s.replace(pat, repl)` for a non-empty pattern. -/
def pyReplace (s pat repl : List Char) : List Char :=
  pyReplaceFuel pat repl s.length s

/-- The `"+00:00"` offset pattern removed by `ensure_timestamp`. -/
def plusOffset : List Char := ['+', '0', '0', ':', '0', '0']

/-- Model of `TradeMessage.ensure_timestamp` from
src/producer/app/src/tiingo/data_structs.py (lines 45-50):

  naked_timestamp = str.replace(timestamp, "+00:00", "")
  format_timestamp = {32: f"{naked_timestamp}Z", 25: f"{naked_timestamp}.000000Z"}
  return format_timestamp[len(timestamp)]

The dict lookup by `len(timestamp)` raises `KeyError` for any length other
than 32 or 25; that failure is modelled by `none`. -/
def ensure_timestamp (timestamp : List Char) : Option (List Char) :=
  let naked := pyReplace timestamp plusOffset []
  if timestamp.length = 32 then some (naked ++ ['Z'])
  else if timestamp.length = 25 then some (naked ++ ".000000Z".data)
  else none

/-- Association-list lookup, modelling Python `dict[key]` access on the JSON
dicts that appear in this code base (`none` models `KeyError`). -/
def alistGet {α : Type} : List (String × α) → String → Option α
  | [], _ => none
  | (k', v) :: rest, k => if k' = k then some v else alistGet rest k

/-- A decimal number `m / 10 ^ e`: the value of a JSON number literal, and the
model of the Python floats flowing through this pipeline (every number here is
a short decimal literal; Python's shortest-round-trip float printing hands the
same literal back, so literal-level decimals are an exact model). -/
structure Dec where
  m : Int
  e : Nat
deriving DecidableEq

/-- JSON values as produced by Python `json.loads` on this system's wire
payloads: strings, numbers (decimal literals), arrays and objects. -/
inductive JVal
  | str (v : String)
  | num (v : Dec)
  | arr (l : List JVal)
  | obj (l : List (String × JVal))

/-- A deserialized API record (`TiingoRecord = Dict[str, Any]` in
src/producer/app/src/tiingo/data_structs.py). -/
abbrev TiingoRecord := List (String × JVal)

/-- Producer-side trade message (the pydantic dataclass `TradeMessage` in
src/producer/app/src/tiingo/data_structs.py).  `size` and `price` are floats
in the source; they only ever carry short decimal literals, modelled as
rationals. -/
structure TradeMessage where
  ticker : String
  date : String
  exchange : String
  size : Dec
  price : Dec
  processed_at : String
deriving DecidableEq

/-- The `Message` union of src/producer/app/src/tiingo/data_structs.py:
`NonTradeMessage(code, message)` (messageType E, H or I) or `TradeMessage`. -/
inductive Message
  | nonTrade (code : Int) (message : String)
  | trade (t : TradeMessage)
deriving DecidableEq

/-- Shared payload of the Tiingo exception classes (code and message), as in
src/producer/app/src/tiingo/exceptions.py. -/
structure TiingoError where
  code : Int
  message : String
deriving DecidableEq

/-- `Message.raise_for_status`: `NonTradeMessage` raises `TiingoClientError`
for any code other than 200; `TradeMessage.raise_for_status` is a no-op.
`some e` models a raised exception. -/
def raise_for_status : Message → Option TiingoError
  | .nonTrade code msg => if code ≠ 200 then some ⟨code, msg⟩ else none
  | .trade _ => none

/-- `TiingoClient._get_next_message` at the message level: receive the next
frame from the socket (modelled as the head of a pending-message list), call
`raise_for_status`, and re-raise any `TiingoClientError` as
`TiingoMessageError` with the same code and message.  `none` models an empty
mock stream (a `recv` that would block, outside this model). -/
def get_next_message : List Message → Option (Except TiingoError (Message × List Message))
  | [] => none
  | m :: rest =>
    match raise_for_status m with
    | some e => some (.error e)
    | none => some (.ok (m, rest))

/-- `TiingoClient._validate_subscription`: read exactly one message after
sending the subscribe frame; a `TiingoMessageError` is re-raised as
`TiingoSubscriptionError` with the same code and message (modelled by
`Except.error`); any message that passes `raise_for_status` is accepted.
On success the remaining stream is returned. -/
def validate_subscription (msgs : List Message) : Option (Except TiingoError (List Message)) :=
  match get_next_message msgs with
  | none => none
  | some (.error e) => some (.error e)
  | some (.ok (_, rest)) => some (.ok rest)

/-- `TiingoClient.get_next_trade`: fetch messages in a loop until one is a
`TradeMessage`, propagating any error raised by `_get_next_message`. -/
def get_next_trade : List Message → Option (Except TiingoError (TradeMessage × List Message))
  | [] => none
  | m :: rest =>
    match raise_for_status m with
    | some e => some (.error e)
    | none =>
      match m with
      | .trade t => some (.ok (t, rest))
      | .nonTrade _ _ => get_next_trade rest

/-- Result of `TiingoClient.get_next_batch`: `batchSizeError` models a raised
`TiingoBatchSizeError`, `messageError` a `TiingoMessageError` escaping the
comprehension, `blocked` an exhausted mock stream, and `ok` carries the batch,
the remaining stream, and the number of `get_next_trade` calls made. -/
inductive BatchResult
  | batchSizeError (size : Int)
  | messageError (e : TiingoError)
  | blocked
  | ok (batch : List TradeMessage) (rest : List Message) (calls : Nat)
deriving DecidableEq

/-- The list comprehension `[self.get_next_trade() for _ in range(size)]`:
one `get_next_trade` call per iteration, aborting the whole batch on error. -/
def get_next_batch_go : Nat → List Message → List TradeMessage → Nat → BatchResult
  | 0, msgs, acc, calls => .ok acc.reverse msgs calls
  | n + 1, msgs, acc, calls =>
    match get_next_trade msgs with
    | none => .blocked
    | some (.error e) => .messageError e
    | some (.ok (t, rest)) => get_next_batch_go n rest (t :: acc) (calls + 1)

/-- `TiingoClient.get_next_batch` (src/producer/app/src/tiingo/client.py,
lines 83-90): raise `TiingoBatchSizeError` when `size < 1`, otherwise collect
exactly `size` trades. -/
def get_next_batch (size : Int) (msgs : List Message) : BatchResult :=
  if size < 1 then .batchSizeError size
  else get_next_batch_go size.toNat msgs [] 0

/-- The trade messages of a stream, in arrival order. -/
def tradesOf (msgs : List Message) : List TradeMessage :=
  msgs.filterMap fun m =>
    match m with
    | .trade t => some t
    | .nonTrade _ _ => none

-- Message parsing (src/producer/app/src/tiingo/parsers.py).

/-- Which parser class `MessageParserFactory.create` selects. -/
inductive ParserKind
  | nonTradeKind
  | tradeKind
deriving DecidableEq

/-- `MessageParserFactory.create`: dispatch on `record["messageType"]` through
the dict `{"E": NonTradeMessageParser(), "I": ..., "H": ..., "A":
TradeMessageParser()}`.  A missing `messageType` key or an unrecognized (or
non-string) discriminant raises `KeyError`, modelled by `none`. -/
def MessageParserFactory_create (record : TiingoRecord) : Option ParserKind :=
  match alistGet record "messageType" with
  | some (.str s) =>
    if s = "E" then some .nonTradeKind
    else if s = "I" then some .nonTradeKind
    else if s = "H" then some .nonTradeKind
    else if s = "A" then some .tradeKind
    else none
  | _ => none

/-- `NonTradeMessageParser.parse`: read `record["response"]["code"]` and
`record["response"]["message"]` and build a `NonTradeMessage`.  A missing key
or a field of the wrong shape raises, modelled by `none`.  (The JSON `code` is
an integer literal; a non-integral number fails the `int` field type.) -/
def NonTradeMessageParser_parse (record : TiingoRecord) : Option Message :=
  match alistGet record "response" with
  | some (.obj resp) =>
    match alistGet resp "code", alistGet resp "message" with
    | some (.num code), some (.str message) =>
      if code.e = 0 then some (.nonTrade code.m message) else none
    | _, _ => none
  | _ => none

/-- `TradeMessageParser.parse`: destructure
`_, ticker, date, exchange, size, price = record["data"]` (exactly six
elements) and build a `TradeMessage`.  Constructing the pydantic dataclass
runs the `ensure_timestamp` validator on `date` and stamps the current UTC
time into `processed_at` (passed in as `now`). -/
def TradeMessageParser_parse (now : String) (record : TiingoRecord) : Option Message :=
  match alistGet record "data" with
  | some (.arr [_, .str ticker, .str date, .str exchange, .num size, .num price]) =>
    match ensure_timestamp date.data with
    | some d => some (.trade ⟨ticker, String.mk d, exchange, size, price, now⟩)
    | none => none
  | _ => none

/-- Failure class for a raw frame that cannot be dispatched: invalid JSON
(`json.loads` raised) or a missing/unrecognized `messageType` (`KeyError` in
`MessageParserFactory.create`). -/
inductive MalformedMessage
  | malformed
deriving DecidableEq

/-- The raw-frame pipeline of `TiingoClient._get_record` followed by
`MessageParserFactory.create` and the chosen parser: `raw = none` models a
payload that is not valid JSON.  The inner `Option` carries the chosen
parser's own field-extraction failures, which are a different error class. -/
def parse_raw_message (raw : Option TiingoRecord) (now : String) :
    Except MalformedMessage (Option Message) :=
  match raw with
  | none => .error .malformed
  | some record =>
    match MessageParserFactory_create record with
    | none => .error .malformed
    | some .nonTradeKind => .ok (NonTradeMessageParser_parse record)
    | some .tradeKind => .ok (TradeMessageParser_parse now record)

-- Delivery retry (src/producer/app/src/tiingo/batches.py, aws_retry).

/-- Outcome of one underlying `firehose.put_record` call: success, a botocore
`ClientError` carrying an error code, or any other raised exception. -/
inductive CallOutcome
  | ok (recordId : String) (encrypted : Bool)
  | clientError (code : String)
  | raisedOther (tag : String)

/-- `FirehoseResponse` dataclass from src/producer/app/src/tiingo/batches.py. -/
structure FirehoseResponse where
  record_id : String
  encrypted : Bool
deriving DecidableEq

/-- What the decorated function call ends in: a returned `FirehoseResponse`, a
re-raised `ClientError`, some other propagated exception, or the Python
wrapper falling out of its `while` loop and returning `None` (`fellThrough`,
proved unreachable below). -/
inductive RetryOutcome
  | returned (r : FirehoseResponse)
  | raisedClient (code : String)
  | raisedOtherE (tag : String)
  | fellThrough
deriving DecidableEq

/-- Observable behaviour of one decorated call: final outcome, the sequence of
`time.sleep` durations performed, and how many underlying calls were made. -/
structure RetryResult where
  outcome : RetryOutcome
  sleeps : List Nat
  calls : Nat
deriving DecidableEq

/-- The `while retries <= total_retries` loop of the `aws_retry` wrapper
(src/producer/app/src/tiingo/batches.py, lines 20-46): call the function; on a
`ClientError` whose code is `"ServiceUnavailableError"` with `retries <
total_retries`, increment `retries`, sleep `retries * delay`, and loop; any
other error is re-raised.  `attempts i` is the outcome of the `(i+1)`-th
underlying call.  The fuel argument makes the recursion structural; `aws_retry`
passes `total_retries + 1`, which is always enough because `retries` grows by
one per iteration and is bounded by `total_retries`. -/
def aws_retry_go (attempts : Nat → CallOutcome) (total_retries delay : Nat) :
    Nat → Nat → List Nat → RetryResult
  | 0, retries, sleeps => ⟨.fellThrough, sleeps, retries⟩
  | fuel + 1, retries, sleeps =>
    match attempts retries with
    | .ok rid enc => ⟨.returned ⟨rid, enc⟩, sleeps, retries + 1⟩
    | .raisedOther tag => ⟨.raisedOtherE tag, sleeps, retries + 1⟩
    | .clientError code =>
      if code = "ServiceUnavailableError" ∧ retries < total_retries then
        aws_retry_go attempts total_retries delay fuel (retries + 1)
          (sleeps ++ [(retries + 1) * delay])
      else ⟨.raisedClient code, sleeps, retries + 1⟩

/-- The `aws_retry(total_retries, delay)` decorator applied to a function
whose successive call outcomes are `attempts`. -/
def aws_retry (total_retries delay : Nat) (attempts : Nat → CallOutcome) : RetryResult :=
  aws_retry_go attempts total_retries delay (total_retries + 1) 0 []

/-- `CompressedBatch.put_to_kinesis_stream` is decorated with `@aws_retry()`,
i.e. with the default `total_retries = 2` and `delay = 5`. -/
def put_to_kinesis_stream (attempts : Nat → CallOutcome) : RetryResult :=
  aws_retry 2 5 attempts

-- Batching and compression (producer) and decoding (consumer).

/-- `TradeBatch` from src/producer/app/src/tiingo/batches.py subclasses
`list` but its `__init__` only stores the trades in the `.batch` attribute and
never calls `list.__init__`, so the underlying list object stays empty.
`listElems` models the contents of that underlying list. -/
structure TradeBatch where
  listElems : List TradeMessage
  batch : List TradeMessage
deriving DecidableEq

/-- `TradeBatch.__init__(batch)`. -/
def TradeBatch.init (ts : List TradeMessage) : TradeBatch := ⟨[], ts⟩

/-- The overridden `TradeBatch.__len__`, which reports `len(self.batch)`. -/
def TradeBatch.lenPy (b : TradeBatch) : Nat := b.batch.length

/-- The ordered JSON object `json.dumps(trade, default=pydantic_encoder)`
produces for one `TradeMessage` (pydantic encodes the dataclass as a dict in
field order). -/
def pydantic_trade_json (t : TradeMessage) : List (String × JVal) :=
  [("ticker", .str t.ticker), ("date", .str t.date), ("exchange", .str t.exchange),
   ("size", .num t.size), ("price", .num t.price), ("processed_at", .str t.processed_at)]

/-- A gzip-compressed batch.  `json.dumps` / newline-join / UTF-8 / gzip and
their inverses are external library codecs with exact round-trip contracts
(gzip and UTF-8 are lossless, `json.loads` inverts `json.dumps`, and the
newline join splits back because `json.dumps` never emits a raw newline), so
the byte buffer is modelled by the sequence of JSON objects it encodes. -/
structure CompressedBatch where
  payload : List (List (String × JVal))

/-- `TradeBatch.compress` (src/producer/app/src/tiingo/batches.py, lines
75-86): serialize each trade of `.batch` to single-line JSON, join with
newlines, UTF-8 encode, gzip-compress. -/
def TradeBatch.compress (b : TradeBatch) : CompressedBatch :=
  ⟨b.batch.map pydantic_trade_json⟩

/-- Consumer-side `Trade` dataclass
(src/lambda/app/src/trade_processor/trades.py): every field is a string. -/
structure Trade where
  ticker : String
  executed_at : String
  exchange : String
  size : String
  price : String
  producer_processed_at : String
  lambda_processed_at : String
deriving DecidableEq

/-- The decompressed newline-delimited JSON file held by `RawTrades`, again
modelled as the sequence of JSON objects encoded in it. -/
structure RawTrades where
  file : List (List (String × JVal))

/-- `GzipCompressedTrades.decompress`: `gzip.decompress` then `BytesIO`. -/
def GzipCompressedTrades_decompress (c : CompressedBatch) : RawTrades :=
  ⟨c.payload⟩

/-- Python `str.strip(chars)` for a single strip character: remove every
leading and trailing occurrence. -/
def stripCharBoth (c : Char) (s : List Char) : List Char :=
  ((s.dropWhile (· == c)).reverse.dropWhile (· == c)).reverse

/-- Value of a decimal digit character. -/
def digitVal (c : Char) : Option Nat :=
  if '0' ≤ c ∧ c ≤ '9' then some (c.toNat - '0'.toNat) else none

/-- Parse a fixed block of decimal digits. -/
def parseNatDigits (cs : List Char) : Option Nat :=
  cs.foldl (fun acc c => acc.bind fun a => (digitVal c).map fun d => a * 10 + d) (some 0)

/-- Days between a proleptic-Gregorian civil date and 1970-01-01 (the standard
era-based civil-calendar algorithm, on mathematical integers with floor
division). -/
def daysFromCivil (y m d : Int) : Int :=
  let y2 := if m ≤ 2 then y - 1 else y
  let era := y2.fdiv 400
  let yoe := y2 - era * 400
  let mp := if 2 < m then m - 3 else m + 9
  let doy := (153 * mp + 2).fdiv 5 + d - 1
  let doe := yoe * 365 + yoe.fdiv 4 - yoe.fdiv 100 + doy
  era * 146097 + doe - 719468

/-- `datetime.fromisoformat` restricted to the canonical 26-character shape
`YYYY-MM-DDTHH:MM:SS.ffffff` that this pipeline's producer emits (any other
shape is modelled as a parse failure), followed by `.timestamp()` under a UTC
process timezone: microseconds since the Unix epoch. -/
def fromisoformatTimestampMicro (s : List Char) : Option Int :=
  match s with
  | [y1, y2, y3, y4, '-', m1, m2, '-', d1, d2, 'T',
     h1, h2, ':', mi1, mi2, ':', s1, s2, '.', f1, f2, f3, f4, f5, f6] =>
    (parseNatDigits [y1, y2, y3, y4]).bind fun y =>
    (parseNatDigits [m1, m2]).bind fun mo =>
    (parseNatDigits [d1, d2]).bind fun d =>
    (parseNatDigits [h1, h2]).bind fun h =>
    (parseNatDigits [mi1, mi2]).bind fun mi =>
    (parseNatDigits [s1, s2]).bind fun ss =>
    (parseNatDigits [f1, f2, f3, f4, f5, f6]).map fun micro =>
      daysFromCivil y mo d * 86400000000 + (h : Int) * 3600000000 +
        (mi : Int) * 60000000 + (ss : Int) * 1000000 + (micro : Int)
  | _ => none

/-- `RawTrades._iso8601_date_to_unix`: `date.strip("Z")` then
`datetime.fromisoformat(...).timestamp()`, the result in microseconds.
`none` models the `ValueError` raised on an unparseable date. -/
def iso8601_date_to_unix (date : String) : Option Int :=
  fromisoformatTimestampMicro (stripCharBoth 'Z' date.data)

/-- Drop trailing `'0'` characters. -/
def stripTrailingZeros (s : List Char) : List Char :=
  (s.reverse.dropWhile (· == '0')).reverse

/-- Python `str(float)` of the non-negative decimal `n / 10 ^ e`: integer
part, a dot, and the fractional digits with trailing zeros dropped but at
least one digit kept, so whole numbers render as `"...0"` - e.g.
`str(1640995200.0) = "1640995200.0"` and `str(123.4) = "123.4"`. -/
def renderScaled (n : Nat) (e : Nat) : String :=
  let ip := n / 10 ^ e
  let fracPart := n % 10 ^ e
  let fracRaw := (toString fracPart).data
  let padded := List.replicate (e - fracRaw.length) '0' ++ fracRaw
  let stripped := stripTrailingZeros padded
  let fracStr := if stripped.isEmpty then "0" else String.mk stripped
  toString ip ++ "." ++ fracStr

/-- Python `str(float)` of a decimal literal. -/
def decToPyFloatStr (d : Dec) : String :=
  if d.m < 0 then "-" ++ renderScaled (-d.m).toNat d.e else renderScaled d.m.toNat d.e

/-- Python `str(float)` of a timestamp held as microseconds since the epoch. -/
def microToPyFloatStr (micro : Int) : String :=
  if micro < 0 then "-" ++ renderScaled (-micro).toNat 6 else renderScaled micro.toNat 6

/-- Python `str(value)` on a JSON-decoded value as used by `_parse_trade`
(strings pass through, numbers arrive as floats and render via `str(float)`;
containers never occur in these positions and get a placeholder). -/
def pyStrOfJVal : JVal → String
  | .str v => v
  | .num v => decToPyFloatStr v
  | .arr _ => "[...]"
  | .obj _ => "..."

/-- Extract a JSON string (used where the source immediately calls a string
method on the value, so a non-string raises). -/
def jStr? : JVal → Option String
  | .str v => some v
  | _ => none

/-- `RawTrades._parse_trade` (src/lambda/app/src/trade_processor/trades.py):
extract the six producer fields from one JSON trade object, convert `date` and
`processed_at` to unix-seconds strings, stringify `size` and `price`, and
stamp `lambda_processed_at` (passed in as `lambda_now`).  `none` models a
raised `KeyError`/`ValueError`. -/
def parse_trade (lambda_now : String) (trade : List (String × JVal)) : Option Trade := do
  let tickerV ← alistGet trade "ticker"
  let ticker ← jStr? tickerV
  let dateV ← alistGet trade "date"
  let dateS ← jStr? dateV
  let executedAt ← iso8601_date_to_unix dateS
  let exchangeV ← alistGet trade "exchange"
  let exchange ← jStr? exchangeV
  let sizeV ← alistGet trade "size"
  let priceV ← alistGet trade "price"
  let procV ← alistGet trade "processed_at"
  let procS ← jStr? procV
  let producerProcessedAt ← iso8601_date_to_unix procS
  some ⟨ticker, microToPyFloatStr executedAt, exchange, pyStrOfJVal sizeV,
    pyStrOfJVal priceV, microToPyFloatStr producerProcessedAt, lambda_now⟩

/-- `RawTrades.parse`: split the file into lines, `json.loads` each line, and
parse every object; any line failure aborts the whole parse. -/
def RawTrades_parse (lambda_now : String) (r : RawTrades) : Option (List Trade) :=
  r.file.mapM (parse_trade lambda_now)

/-- The full producer-to-consumer pipeline of claim C1:
serialize and compress on the producer, decompress and parse on the
consumer. -/
def round_trip (lambda_now : String) (ts : List TradeMessage) : Option (List Trade) :=
  RawTrades_parse lambda_now
    (GzipCompressedTrades_decompress (TradeBatch.compress (TradeBatch.init ts)))

/-- The field-wise conversion the consumer actually applies to each producer
record: ticker and exchange pass through, `date` and `processed_at` become
unix-seconds strings, `size` and `price` become decimal strings, and
`lambda_processed_at` is stamped fresh. -/
def convert_trade (lambda_now : String) (t : TradeMessage) : Option Trade := do
  let e ← iso8601_date_to_unix t.date
  let p ← iso8601_date_to_unix t.processed_at
  some ⟨t.ticker, microToPyFloatStr e, t.exchange, decToPyFloatStr t.size,
    decToPyFloatStr t.price, microToPyFloatStr p, lambda_now⟩

-- DynamoDB persistence (src/lambda/app/src/trade_processor).

/-- One typed DynamoDB attribute value (`{"S": ...}` or `{"N": ...}`). -/
structure AttrVal where
  attr_type : String
  attr_value : String
deriving DecidableEq

/-- `TradeList._create_dynamodb_attributes`: the deterministic field-to-typed-
attribute mapping. -/
def create_dynamodb_attributes (t : Trade) : List (String × AttrVal) :=
  [("Ticker", ⟨"S", t.ticker⟩), ("ExecutedAt", ⟨"N", t.executed_at⟩),
   ("Exchange", ⟨"S", t.exchange⟩), ("Size", ⟨"N", t.size⟩),
   ("Price", ⟨"N", t.price⟩), ("ProducerProcessedAt", ⟨"N", t.producer_processed_at⟩)]

/-- `TradeList._create_dynamodb_put_request`: the `{"PutRequest": {"Item":
attributes}}` wrapper, carried as its attribute payload. -/
def create_dynamodb_put_request (t : Trade) : List (String × AttrVal) :=
  create_dynamodb_attributes t

/-- The chunking loop of `TradeList.batch`:
`for i in range(0, len(self.trades), size)` slicing `trades[i : i + size]`.
Fuel-structural; `TradeList_batch` passes the list length, which is enough for
any `size ≥ 1`. -/
def TradeList_batch_go (size : Nat) : Nat → List Trade → List (List Trade)
  | _, [] => []
  | 0, l => [l]
  | fuel + 1, l => l.take size :: TradeList_batch_go size fuel (l.drop size)

/-- `TradeList.batch(size=25)` (src/lambda/app/src/trade_processor/trades.py,
lines 36-41). -/
def TradeList_batch (trades : List Trade) (size : Nat) : List (List Trade) :=
  TradeList_batch_go size trades.length trades

/-- A `batch_write_item` `RequestItems` payload: table name to put requests. -/
abbrev BwItems := List (String × List (List (String × AttrVal)))

/-- A `batch_write_item` response, a dict whose keys include
`"UnprocessedItems"` (the store's partial-failure channel; an empty dict when
everything was processed).  The response never contains an
`"UnprocessedKeys"` key - that key belongs to `batch_get_item` responses. -/
abbrev BwResponse := List (String × BwItems)

/-- The `while` loop of the `exhaust_unprocessed_items` decorator
(src/lambda/app/src/trade_processor/dynamodb.py, lines 13-22): after each
call, read `response.get("UnprocessedKeys")` and, while it is not `None`, call
the wrapped function again.  `responses i` is the store's response to the
`(i+1)`-th call; the returned value is the total number of calls made (`none`
when the fuel runs out, i.e. the loop is still running). -/
def exhaust_go (responses : Nat → BwResponse) : Nat → Nat → Option Nat
  | 0, _ => none
  | fuel + 1, calls =>
    match alistGet (responses calls) "UnprocessedKeys" with
    | none => some (calls + 1)
    | some _ => exhaust_go responses fuel (calls + 1)

/-- One decorated `_put_batch_to_dynamodb` invocation under
`exhaust_unprocessed_items`, returning how many `batch_write_item` calls were
issued. -/
def exhaust_unprocessed_items (responses : Nat → BwResponse) (fuel : Nat) : Option Nat :=
  exhaust_go responses fuel 0

/-- `TradeList.put_to_dynamodb` (src/lambda/app/src/trade_processor/trades.py,
lines 67-73): build one put request per trade of the whole list and issue a
single `batch_write_item` call with `{table: put_requests}` - the method never
calls `TradeList.batch`, so no chunking happens.  The value is the list of
issued initial batch-write payloads, one entry per initiated store call. -/
def put_to_dynamodb (table : String) (trades : List Trade) : List BwItems :=
  [[(table, trades.map create_dynamodb_put_request)]]

/-- The observable retry discipline of one `aws_retry`-wrapped call whose loop
entered with `retries` retries already performed and `sleeps` already slept:
at least one and at most `total + 1` calls overall; the sleep trace extends
`sleeps` with `(k * delay)` for each further retry `k`; every call that was
followed by a retry failed with a `"ServiceUnavailableError"` `ClientError`;
the final outcome is exactly the final call's outcome (so nothing is ever
swallowed); and the transient error is only ever re-raised once the retry
budget is exhausted. -/
def RetryBehavior (attempts : Nat → CallOutcome) (total delay retries : Nat)
    (sleeps : List Nat) (r : RetryResult) : Prop :=
  retries + 1 ≤ r.calls ∧ r.calls ≤ total + 1 ∧
  r.sleeps = sleeps ++ (List.range' (retries + 1) (r.calls - 1 - retries)).map (· * delay) ∧
  (∀ i, retries ≤ i → i + 1 < r.calls →
    attempts i = .clientError "ServiceUnavailableError") ∧
  r.outcome = (match attempts (r.calls - 1) with
    | .ok rid enc => .returned ⟨rid, enc⟩
    | .clientError c => .raisedClient c
    | .raisedOther t => .raisedOtherE t) ∧
  (r.outcome = .raisedClient "ServiceUnavailableError" → r.calls = total + 1)

/-- The store of the spec's partial-failure scenario: the response to the
first `batch_write_item` call reports unprocessed items for part of the chunk
under the `"UnprocessedItems"` key (as the real store does); the response to
any further call reports none. -/
def halfUnprocessedStore : Nat → BwResponse := fun i =>
  if i = 0 then [("UnprocessedItems", [("trades", [[("Ticker", ⟨"S", "BTC"⟩)]])])]
  else [("UnprocessedItems", [])]

-- Helper lemmas about the replace model.

theorem pyReplaceFuel_nil (pat repl : List Char) (n : Nat) :
    pyReplaceFuel pat repl n [] = [] := by
  cases n <;> rfl

theorem pyReplaceFuel_offset_self (n : Nat) (hn : 6 ≤ n) :
    pyReplaceFuel plusOffset [] n plusOffset = [] := by
  match n, hn with
  | n + 1, _ =>
    show pyReplaceFuel plusOffset [] (n + 1) plusOffset = []
    simp [pyReplaceFuel, plusOffset, startsWithL, pyReplaceFuel_nil]

theorem pyReplaceFuel_cons_ne (c : Char) (t : List Char) (n : Nat)
    (hc : c ≠ '+') :
    pyReplaceFuel plusOffset [] (n + 1) (c :: t) =
      c :: pyReplaceFuel plusOffset [] n t := by
  have hbeq : ('+' == c) = false := beq_eq_false_iff_ne.mpr (Ne.symm hc)
  simp [pyReplaceFuel, plusOffset, startsWithL, hbeq]

/-- Removing the `"+00:00"` suffix: if the prefix `p` contains no `'+'`, the
only occurrence of the pattern is the trailing offset itself. -/
theorem pyReplaceFuel_strip_offset (p : List Char) (n : Nat)
    (hp : '+' ∉ p) (hn : p.length + 6 ≤ n) :
    pyReplaceFuel plusOffset [] n (p ++ plusOffset) = p := by
  induction p generalizing n with
  | nil =>
    simpa using pyReplaceFuel_offset_self n (by simpa using hn)
  | cons c p ih =>
    have hc : c ≠ '+' := fun h => hp (h ▸ List.mem_cons_self c p)
    have hp' : '+' ∉ p := fun h => hp (List.mem_cons_of_mem _ h)
    match n, hn with
    | n + 1, hn =>
      have hn' : p.length + 6 ≤ n := by
        simp only [List.length_cons] at hn; omega
      rw [List.cons_append, pyReplaceFuel_cons_ne c _ n hc, ih n hp' hn']

theorem pyReplace_strip_offset (p : List Char) (hp : '+' ∉ p) :
    pyReplace (p ++ plusOffset) plusOffset [] = p := by
  apply pyReplaceFuel_strip_offset p _ hp
  simp [plusOffset]

theorem ensure_timestamp_isSome_iff (s : List Char) :
    (ensure_timestamp s).isSome ↔ (s.length = 25 ∨ s.length = 32) := by
  unfold ensure_timestamp
  by_cases h32 : s.length = 32
  · simp [h32]
  · by_cases h25 : s.length = 25
    · simp [h25, h32]
    · simp [h25, h32]

-- Claim C6 and C7 theorems.

/-- C6 counterexample: on the spec's own example input
`"2022-01-01T00:00:00+00:00"`, `ensure_timestamp` produces the expected
canonical string, but that string has 27 characters, not 26 as the claim
states (`YYYY-MM-DDTHH:MM:SS.ffffffZ` is 27 characters long). -/
theorem ensure_timestamp_output_not_26_chars :
    ensure_timestamp ("2022-01-01T00:00:00+00:00".data) =
      some ("2022-01-01T00:00:00.000000Z".data) ∧
    ("2022-01-01T00:00:00.000000Z".data).length ≠ 26 := by
  decide

/-- C6 (amended): for a vendor timestamp `p ++ "+00:00"` without a
fractional-seconds group (19-character prefix, no `'+'` inside), the result is
the 27-character canonical string `p ++ ".000000Z"`, which ends in
`".000000Z"`; for a timestamp `p ++ "." ++ f ++ "+00:00"` with a six-digit
fractional group `f`, the result is the 27-character string
`p ++ "." ++ f ++ "Z"`, carrying the fractional value unchanged. -/
theorem ensure_timestamp_normalizes (p f : List Char)
    (hp19 : p.length = 19) (hf6 : f.length = 6)
    (hp : '+' ∉ p) (hf : '+' ∉ f) :
    (ensure_timestamp (p ++ plusOffset) = some (p ++ ".000000Z".data) ∧
      (p ++ ".000000Z".data).length = 27 ∧
      ".000000Z".data <:+ p ++ ".000000Z".data) ∧
    (ensure_timestamp ((p ++ '.' :: f) ++ plusOffset) =
        some ((p ++ '.' :: f) ++ ['Z']) ∧
      ((p ++ '.' :: f) ++ ['Z']).length = 27) := by
  have hq : '+' ∉ p ++ '.' :: f := by
    intro hmem
    rcases List.mem_append.mp hmem with h | h
    · exact hp h
    · rcases List.mem_cons.mp h with h | h
      · cases h
      · exact hf h
  refine ⟨⟨?_, ?_, ⟨p, rfl⟩⟩, ?_, ?_⟩
  · unfold ensure_timestamp
    rw [pyReplace_strip_offset p hp]
    have hlen : (p ++ plusOffset).length = 25 := by
      simp [plusOffset, hp19]
    simp [hlen]
  · simp [hp19, String.data]
  · unfold ensure_timestamp
    rw [pyReplace_strip_offset (p ++ '.' :: f) hq]
    simp [plusOffset, hp19, hf6]
  · simp [hp19, hf6]

/-- C6 witness: the amended theorem applied to the spec's example prefix and
to a concrete six-digit fraction. -/
theorem ensure_timestamp_normalizes_witness :
    ensure_timestamp ("2022-01-01T00:00:00".data ++ plusOffset) =
      some ("2022-01-01T00:00:00".data ++ ".000000Z".data) ∧
    ensure_timestamp (("2022-01-01T00:00:00".data ++ '.' :: "123456".data) ++ plusOffset) =
      some (("2022-01-01T00:00:00".data ++ '.' :: "123456".data) ++ ['Z']) := by
  have h := ensure_timestamp_normalizes ("2022-01-01T00:00:00".data) ("123456".data)
    (by decide) (by decide) (by decide) (by decide)
  exact ⟨h.1.1, h.2.1⟩

/-- C7 counterexample: `ensure_timestamp` is not total - on the empty string
(which is neither 25 nor 32 characters long) the dict lookup by length raises
`KeyError`, modelled by `none`. -/
theorem ensure_timestamp_empty_raises :
    ensure_timestamp ("".data) = none := by
  decide

/-- C7 (amended): `ensure_timestamp` returns a string exactly on inputs of
length 25 or 32; on any other length the `format_timestamp[len(timestamp)]`
dict access raises `KeyError`. -/
theorem ensure_timestamp_total_iff (s : List Char) :
    (ensure_timestamp s).isSome ↔ (s.length = 25 ∨ s.length = 32) :=
  ensure_timestamp_isSome_iff s

-- Claim C4 theorems (subscription handshake).

/-- C4 counterexample: the handshake does not require a `SubscriptionAck`.
If the single message read after subscribing is a trade message - a message of
the wrong type, not an ack - `raise_for_status` is a no-op, so client
construction succeeds instead of failing with `SubscriptionError` as the
claim states. -/
theorem validate_subscription_accepts_wrong_type :
    validate_subscription
      [.trade ⟨"BTC", "2022-01-01T00:00:00.000000Z", "Bitfinex", ⟨1234, 1⟩,
        ⟨5678, 1⟩, "2022-01-01T00:00:00.000000Z"⟩] = some (.ok []) := rfl

/-- C4 (amended): the handshake reads exactly one response message (on
success the returned stream is the input minus that one message); it fails
with `SubscriptionError` carrying the message's code and message exactly when
that message is a non-trade message with code other than 200; a code-200
non-trade message or a trade message is accepted, and every raised error
carries a non-200 code from a non-trade message. -/
theorem validate_subscription_spec (m : Message) (rest : List Message) :
    (∀ c s, m = .nonTrade c s → c ≠ 200 →
      validate_subscription (m :: rest) = some (.error ⟨c, s⟩)) ∧
    (∀ s, m = .nonTrade 200 s →
      validate_subscription (m :: rest) = some (.ok rest)) ∧
    (∀ t, m = .trade t →
      validate_subscription (m :: rest) = some (.ok rest)) ∧
    (∀ e, validate_subscription (m :: rest) = some (.error e) →
      (∃ s, m = .nonTrade e.code s) ∧ e.code ≠ 200) := by
  refine ⟨?_, ?_, ?_, ?_⟩
  · rintro c s rfl hc
    simp [validate_subscription, get_next_message, raise_for_status, hc]
  · rintro s rfl
    simp [validate_subscription, get_next_message, raise_for_status]
  · rintro t rfl
    simp [validate_subscription, get_next_message, raise_for_status]
  · intro e he
    cases m with
    | nonTrade c s =>
      by_cases hc : c = 200
      · subst hc
        simp [validate_subscription, get_next_message, raise_for_status] at he
      · simp [validate_subscription, get_next_message, raise_for_status, hc] at he
        exact ⟨⟨s, by rw [← he]⟩, by rw [← he]; exact hc⟩
    | trade t =>
      simp [validate_subscription, get_next_message, raise_for_status] at he

/-- C4 witness: the amended theorem applied to the spec's mocked Error
response with code 401. -/
theorem validate_subscription_spec_witness :
    validate_subscription [.nonTrade 401 "Authorization failed"] =
      some (.error ⟨401, "Authorization failed"⟩) :=
  (validate_subscription_spec (.nonTrade 401 "Authorization failed") []).1
    401 "Authorization failed" rfl (by decide)

-- Claim C5 theorems (get_next_batch).

theorem get_next_trade_tradesOf (msgs : List Message) (t : TradeMessage)
    (rest : List Message) (h : get_next_trade msgs = some (.ok (t, rest))) :
    tradesOf msgs = t :: tradesOf rest := by
  induction msgs with
  | nil => simp [get_next_trade] at h
  | cons m ms ih =>
    cases m with
    | nonTrade c s =>
      by_cases hc : c = 200
      · subst hc
        rw [get_next_trade] at h
        simp [raise_for_status] at h
        simpa [tradesOf] using ih h
      · rw [get_next_trade] at h
        simp [raise_for_status, hc] at h
    | trade t' =>
      rw [get_next_trade] at h
      simp [raise_for_status] at h
      obtain ⟨h1, h2⟩ := h
      subst h1; subst h2
      simp [tradesOf]

theorem get_next_batch_go_ok (n : Nat) :
    ∀ msgs acc calls b rest calls2,
      get_next_batch_go n msgs acc calls = .ok b rest calls2 →
      ∃ fresh, b = acc.reverse ++ fresh ∧ fresh.length = n ∧
        tradesOf msgs = fresh ++ tradesOf rest ∧ calls2 = calls + n := by
  induction n with
  | zero =>
    intro msgs acc calls b rest calls2 h
    rw [get_next_batch_go] at h
    cases h
    exact ⟨[], by simp, rfl, by simp, rfl⟩
  | succ n ih =>
    intro msgs acc calls b rest calls2 h
    rw [get_next_batch_go] at h
    cases hg : get_next_trade msgs with
    | none => rw [hg] at h; cases h
    | some r =>
      cases r with
      | error e => rw [hg] at h; cases h
      | ok p =>
        obtain ⟨t, rest1⟩ := p
        rw [hg] at h
        obtain ⟨fresh, hb, hlen, htr, hc⟩ := ih rest1 (t :: acc) (calls + 1) b rest calls2 h
        refine ⟨t :: fresh, ?_, by simp [hlen], ?_, by omega⟩
        · simpa using hb
        · rw [get_next_trade_tradesOf msgs t rest1 hg, htr]
          simp

/-- C5: `get_next_batch(size)` raises `TiingoBatchSizeError` for every
`size < 1`; for `size ≥ 1`, whenever it returns a batch it has called
`get_next_trade` exactly `size` times and the batch consists of exactly the
next `size` trade messages of the stream in arrival order (so it contains no
heartbeat or other non-trade message, which `tradesOf` filters out). -/
theorem get_next_batch_spec (size : Int) (msgs : List Message) :
    (size < 1 → get_next_batch size msgs = .batchSizeError size) ∧
    (∀ b rest calls, get_next_batch size msgs = .ok b rest calls →
      b.length = size.toNat ∧ calls = size.toNat ∧
      tradesOf msgs = b ++ tradesOf rest) := by
  constructor
  · intro h
    simp [get_next_batch, h]
  · intro b rest calls h
    by_cases hs : size < 1
    · simp [get_next_batch, hs] at h
    · rw [get_next_batch, if_neg hs] at h
      obtain ⟨fresh, hb, hlen, htr, hc⟩ :=
        get_next_batch_go_ok size.toNat msgs [] 0 b rest calls h
      simp only [List.reverse_nil, List.nil_append] at hb
      subst hb
      exact ⟨hlen, by omega, htr⟩

/-- C5 witness: the theorem applied to a size-0 request (raising
`TiingoBatchSizeError`) and to a size-2 request on a stream whose first
message is a heartbeat (a clean two-trade batch with two calls). -/
theorem get_next_batch_spec_witness :
    get_next_batch 0 [] = .batchSizeError 0 ∧
    (([⟨"BTC", "d", "e", ⟨1, 0⟩, ⟨2, 0⟩, "p"⟩,
       ⟨"ETH", "d", "e", ⟨1, 0⟩, ⟨2, 0⟩, "p"⟩] : List TradeMessage).length =
        (2 : Int).toNat ∧ (2 : Nat) = (2 : Int).toNat ∧
      tradesOf [.nonTrade 200 "hb",
        .trade ⟨"BTC", "d", "e", ⟨1, 0⟩, ⟨2, 0⟩, "p"⟩,
        .trade ⟨"ETH", "d", "e", ⟨1, 0⟩, ⟨2, 0⟩, "p"⟩] =
        [⟨"BTC", "d", "e", ⟨1, 0⟩, ⟨2, 0⟩, "p"⟩,
         ⟨"ETH", "d", "e", ⟨1, 0⟩, ⟨2, 0⟩, "p"⟩] ++ tradesOf []) := by
  refine ⟨(get_next_batch_spec 0 []).1 (by decide), ?_⟩
  exact (get_next_batch_spec 2
      [.nonTrade 200 "hb",
        .trade ⟨"BTC", "d", "e", ⟨1, 0⟩, ⟨2, 0⟩, "p"⟩,
        .trade ⟨"ETH", "d", "e", ⟨1, 0⟩, ⟨2, 0⟩, "p"⟩]).2
      [⟨"BTC", "d", "e", ⟨1, 0⟩, ⟨2, 0⟩, "p"⟩,
       ⟨"ETH", "d", "e", ⟨1, 0⟩, ⟨2, 0⟩, "p"⟩] [] 2 rfl


-- Claim C3 theorems (aws_retry / put_to_kinesis_stream).

theorem aws_retry_go_spec (attempts : Nat → CallOutcome) (total delay : Nat) :
    ∀ fuel retries sleeps, retries + fuel = total + 1 → 1 ≤ fuel →
      RetryBehavior attempts total delay retries sleeps
        (aws_retry_go attempts total delay fuel retries sleeps) := by
  intro fuel
  induction fuel with
  | zero => intro retries sleeps hinv hpos; omega
  | succ fuel ih =>
    intro retries sleeps hinv _
    cases ha : attempts retries with
    | ok rid enc =>
      have hstep : aws_retry_go attempts total delay (fuel + 1) retries sleeps =
          ⟨.returned ⟨rid, enc⟩, sleeps, retries + 1⟩ := by
        rw [aws_retry_go, ha]
      rw [hstep]
      refine ⟨by dsimp only; omega, by dsimp only; omega, by simp, ?_,
        by simp [ha], by simp⟩
      intro i hi1 hi2
      dsimp only at hi2
      omega
    | raisedOther tag =>
      have hstep : aws_retry_go attempts total delay (fuel + 1) retries sleeps =
          ⟨.raisedOtherE tag, sleeps, retries + 1⟩ := by
        rw [aws_retry_go, ha]
      rw [hstep]
      refine ⟨by dsimp only; omega, by dsimp only; omega, by simp, ?_,
        by simp [ha], by simp⟩
      intro i hi1 hi2
      dsimp only at hi2
      omega
    | clientError code =>
      by_cases hg : code = "ServiceUnavailableError" ∧ retries < total
      · have hstep : aws_retry_go attempts total delay (fuel + 1) retries sleeps =
            aws_retry_go attempts total delay fuel (retries + 1)
              (sleeps ++ [(retries + 1) * delay]) := by
          rw [aws_retry_go, ha]
          dsimp only
          rw [if_pos hg]
        rw [hstep]
        have hfuel : 1 ≤ fuel := by omega
        obtain ⟨h1, h2, h3, h4, h5, h6⟩ :=
          ih (retries + 1) (sleeps ++ [(retries + 1) * delay]) (by omega) hfuel
        refine ⟨by omega, h2, ?_, ?_, h5, h6⟩
        · rw [h3, List.append_assoc]
          congr 1
          have hc1 : (aws_retry_go attempts total delay fuel (retries + 1)
              (sleeps ++ [(retries + 1) * delay])).calls - 1 - retries =
              ((aws_retry_go attempts total delay fuel (retries + 1)
                (sleeps ++ [(retries + 1) * delay])).calls - 1 - (retries + 1)) + 1 := by
            omega
          rw [hc1, List.range'_succ]
          simp
        · intro i hi1 hi2
          rcases Nat.eq_or_lt_of_le hi1 with h | h
          · rw [← h, ha, hg.1]
          · exact h4 i h hi2
      · have hstep : aws_retry_go attempts total delay (fuel + 1) retries sleeps =
            ⟨.raisedClient code, sleeps, retries + 1⟩ := by
          rw [aws_retry_go, ha]
          dsimp only
          rw [if_neg hg]
        rw [hstep]
        refine ⟨by dsimp only; omega, by dsimp only; omega, by simp, ?_,
          by simp [ha], ?_⟩
        · intro i hi1 hi2
          dsimp only at hi2
          omega
        · intro hout
          simp at hout
          have hnlt : ¬ retries < total := fun hlt => hg ⟨hout, hlt⟩
          dsimp only
          omega

/-- C3: `put_to_kinesis_stream` (decorated with `aws_retry()` at its defaults
`total_retries = 2`, `delay = 5`) makes at most `total_retries + 1 = 3`
underlying calls; every call that is followed by a retry failed with a
`ClientError` of code `"ServiceUnavailableError"` (so nothing else is ever
retried); before the k-th retry it sleeps `k * delay` seconds (linear
backoff `attempt * base_delay`); the final outcome is exactly the final
call's outcome - a non-transient `ClientError` such as
`"AccessDeniedException"` on the first call propagates immediately with no
retry, a run of `"ServiceUnavailableError"` failures exhausts the budget
after exactly 3 calls and re-raises, a non-`ClientError` exception propagates
immediately, and the wrapper never falls through returning `None`, so no
error is silently dropped. -/
theorem put_to_kinesis_stream_retry_policy (attempts : Nat → CallOutcome) :
    1 ≤ (put_to_kinesis_stream attempts).calls ∧
    (put_to_kinesis_stream attempts).calls ≤ 3 ∧
    (put_to_kinesis_stream attempts).sleeps =
      (List.range' 1 ((put_to_kinesis_stream attempts).calls - 1)).map (· * 5) ∧
    (∀ i, i + 1 < (put_to_kinesis_stream attempts).calls →
      attempts i = .clientError "ServiceUnavailableError") ∧
    (put_to_kinesis_stream attempts).outcome =
      (match attempts ((put_to_kinesis_stream attempts).calls - 1) with
        | .ok rid enc => .returned ⟨rid, enc⟩
        | .clientError c => .raisedClient c
        | .raisedOther t => .raisedOtherE t) ∧
    (put_to_kinesis_stream attempts).outcome ≠ .fellThrough ∧
    (∀ code, attempts 0 = .clientError code → code ≠ "ServiceUnavailableError" →
      (put_to_kinesis_stream attempts).calls = 1 ∧
      (put_to_kinesis_stream attempts).outcome = .raisedClient code) ∧
    ((∀ i, attempts i = .clientError "ServiceUnavailableError") →
      (put_to_kinesis_stream attempts).calls = 3 ∧
      (put_to_kinesis_stream attempts).outcome =
        .raisedClient "ServiceUnavailableError") ∧
    (∀ tag, attempts 0 = .raisedOther tag →
      (put_to_kinesis_stream attempts).calls = 1 ∧
      (put_to_kinesis_stream attempts).outcome = .raisedOtherE tag) := by
  have h := aws_retry_go_spec attempts 2 5 3 0 [] (by omega) (by omega)
  have hps : put_to_kinesis_stream attempts = aws_retry_go attempts 2 5 3 0 [] := rfl
  rw [← hps] at h
  obtain ⟨h1, h2, h3, h4, h5, h6⟩ := h
  refine ⟨h1, h2, by simpa using h3, fun i => h4 i (Nat.zero_le i), h5, ?_, ?_, ?_, ?_⟩
  · rw [h5]
    cases attempts ((put_to_kinesis_stream attempts).calls - 1) <;> simp
  · intro code hc hni
    have hcalls : (put_to_kinesis_stream attempts).calls = 1 := by
      by_contra hne
      have hlt : 0 + 1 < (put_to_kinesis_stream attempts).calls := by omega
      have := h4 0 (by omega) hlt
      rw [hc] at this
      cases this
      exact hni rfl
    refine ⟨hcalls, ?_⟩
    rw [h5, hcalls]
    simp [hc]
  · intro hall
    have houtcome : (put_to_kinesis_stream attempts).outcome =
        .raisedClient "ServiceUnavailableError" := by
      rw [h5, hall ((put_to_kinesis_stream attempts).calls - 1)]
    exact ⟨h6 houtcome, houtcome⟩
  · intro tag ht
    have hcalls : (put_to_kinesis_stream attempts).calls = 1 := by
      by_contra hne
      have hlt : 0 + 1 < (put_to_kinesis_stream attempts).calls := by omega
      have := h4 0 (by omega) hlt
      rw [ht] at this
      cases this
    refine ⟨hcalls, ?_⟩
    rw [h5, hcalls]
    simp [ht]

/-- C3 witness: the theorem applied to an always-"ServiceUnavailableError"
firehose client - three calls, two linear-backoff sleeps of 5 and 10 seconds,
and the error finally re-raised. -/
theorem put_to_kinesis_stream_retry_policy_witness :
    (put_to_kinesis_stream (fun _ => .clientError "ServiceUnavailableError")).calls = 3 ∧
    (put_to_kinesis_stream (fun _ => .clientError "ServiceUnavailableError")).outcome =
      .raisedClient "ServiceUnavailableError" ∧
    (put_to_kinesis_stream (fun _ => .clientError "ServiceUnavailableError")).sleeps =
      [5, 10] := by
  have h := put_to_kinesis_stream_retry_policy
    (fun _ => .clientError "ServiceUnavailableError")
  obtain ⟨hc3, hout⟩ := h.2.2.2.2.2.2.2.1 (fun _ => rfl)
  exact ⟨hc3, hout, rfl⟩

-- Claim C1 theorems (serialize / compress / decompress / parse round trip).

theorem parse_trade_pydantic (lambda_now : String) (t : TradeMessage) :
    parse_trade lambda_now (pydantic_trade_json t) = convert_trade lambda_now t := by
  unfold parse_trade pydantic_trade_json convert_trade
  simp [alistGet, jStr?, pyStrOfJVal]

/-- C1 (amended): decompressing and parsing a compressed batch yields, for
each record, not the record itself but its image under the consumer's field
conversions (`convert_trade`): ticker and exchange pass through unchanged,
`date` and `processed_at` are converted to unix-epoch-seconds strings, `size`
and `price` are re-rendered as decimal strings, and a fresh
`lambda_processed_at` is stamped; i.e.
`parse ∘ decompress ∘ compress ∘ serialize = mapM convert_trade`, for every
list of trade messages. -/
theorem round_trip_eq_converted (lambda_now : String) (ts : List TradeMessage) :
    round_trip lambda_now ts = ts.mapM (convert_trade lambda_now) := by
  unfold round_trip RawTrades_parse GzipCompressedTrades_decompress
  unfold TradeBatch.compress TradeBatch.init
  induction ts with
  | nil => rfl
  | cons t ts ih =>
    dsimp only [List.map_cons]
    rw [List.mapM_cons, List.mapM_cons, parse_trade_pydantic]
    dsimp only at ih
    rw [ih]

/-- C1 counterexample: the round trip is not the identity.  For a single valid
trade record with the canonical date `"2022-01-01T00:00:00.000000Z"`, the
consumer-side parse returns a record whose `executed_at` field is the
unix-seconds string `"1640995200.0"`, which differs from the record's original
timestamp, so `parseLines(decompress(compress(serialize(records))))` is not
equal to `records`. -/
theorem round_trip_not_identity :
    (round_trip "0" [⟨"BTC", "2022-01-01T00:00:00.000000Z", "Bitfinex", ⟨1234, 1⟩,
        ⟨5678, 1⟩, "2022-01-01T00:00:00.000000Z"⟩]).map (List.map Trade.executed_at) =
      some ["1640995200.0"] ∧
    ("1640995200.0" : String) ≠ "2022-01-01T00:00:00.000000Z" := by
  exact ⟨rfl, by decide⟩

-- Claim C2 theorem (exhaust_unprocessed_items).

/-- C2: the drain loop never re-submits anything.  Against a store whose
first batch-write response carries a non-empty `"UnprocessedItems"` set (the
partial-failure channel of the real store) and whose second response carries
an empty one, the decorated call issues exactly one `batch_write_item` call
and stops - not the two calls the claim requires - because the wrapper reads
`response.get("UnprocessedKeys")`, a key that batch-write responses never
contain, so the unprocessed items are silently dropped.  (The second conjunct
exhibits that the first response does report unprocessed items.) -/
theorem exhaust_unprocessed_items_ignores_unprocessed (fuel : Nat) :
    exhaust_unprocessed_items halfUnprocessedStore (fuel + 1) = some 1 ∧
    alistGet (halfUnprocessedStore 0) "UnprocessedItems" =
      some [("trades", [[("Ticker", ⟨"S", "BTC"⟩)]])] :=
  ⟨rfl, rfl⟩

-- Claim C8 theorem (put_to_dynamodb chunking).

/-- C8: `put_to_dynamodb` does not partition its records.  For 30 input
records it issues a single initial batch-write call whose payload holds all
30 put requests (exceeding the store's 25-item batch-write limit), even
though the unused `TradeList.batch` method would have produced the two chunks
of 25 and 5 the claim describes. -/
theorem put_to_dynamodb_single_call :
    (put_to_dynamodb "trades"
      (List.replicate 30 ⟨"BTC", "1640995200.0", "Bitfinex", "123.4", "567.8",
        "1640995200.0", "1640995600.0"⟩)).length = 1 ∧
    put_to_dynamodb "trades"
      (List.replicate 30 ⟨"BTC", "1640995200.0", "Bitfinex", "123.4", "567.8",
        "1640995200.0", "1640995600.0"⟩) =
      [[("trades", (List.replicate 30 (⟨"BTC", "1640995200.0", "Bitfinex", "123.4",
        "567.8", "1640995200.0", "1640995600.0"⟩ : Trade)).map
          create_dynamodb_put_request)]] ∧
    ((List.replicate 30 (⟨"BTC", "1640995200.0", "Bitfinex", "123.4", "567.8",
        "1640995200.0", "1640995600.0"⟩ : Trade)).map
      create_dynamodb_put_request).length = 30 ∧
    (TradeList_batch (List.replicate 30 ⟨"BTC", "1640995200.0", "Bitfinex", "123.4",
        "567.8", "1640995200.0", "1640995600.0"⟩) 25).map List.length = [25, 5] := by
  refine ⟨rfl, rfl, by decide, by decide⟩

-- Claim C9 theorems (message parsing / dispatch).

/-- C9: parsing a raw frame fails with the malformed-message error class when
the payload is not valid JSON (`raw = none`), when the `messageType` key is
missing, or when the discriminant is not one of `"E"`, `"I"`, `"H"`, `"A"`
(including non-string discriminants); for a recognized discriminant the
corresponding parser runs - `NonTradeMessageParser` for E/I/H, yielding the
non-trade variant with the `response.code`/`response.message` fields, and
`TradeMessageParser` for A, yielding the trade variant built from the
positional `data` array (with the `ensure_timestamp` validator applied to the
date). -/
theorem parse_raw_message_spec (raw : Option TiingoRecord) (now : String) :
    (raw = none → parse_raw_message raw now = .error .malformed) ∧
    (∀ r, raw = some r → alistGet r "messageType" = none →
      parse_raw_message raw now = .error .malformed) ∧
    (∀ r v, raw = some r → alistGet r "messageType" = some v →
      (∀ tag, tag ∈ (["E", "I", "H", "A"] : List String) → v ≠ .str tag) →
      parse_raw_message raw now = .error .malformed) ∧
    (∀ r tag, raw = some r → alistGet r "messageType" = some (.str tag) →
      (tag = "E" ∨ tag = "I" ∨ tag = "H") →
      parse_raw_message raw now = .ok (NonTradeMessageParser_parse r)) ∧
    (∀ r, raw = some r → alistGet r "messageType" = some (.str "A") →
      parse_raw_message raw now = .ok (TradeMessageParser_parse now r)) ∧
    (∀ r resp c msg, alistGet r "response" = some (.obj resp) →
      alistGet resp "code" = some (.num ⟨c, 0⟩) →
      alistGet resp "message" = some (.str msg) →
      NonTradeMessageParser_parse r = some (.nonTrade c msg)) ∧
    (∀ r u ticker date exchange size price d,
      alistGet r "data" = some (.arr [u, .str ticker, .str date, .str exchange,
        .num size, .num price]) →
      ensure_timestamp date.data = some d →
      TradeMessageParser_parse now r = some (.trade
        ⟨ticker, String.mk d, exchange, size, price, now⟩)) := by
  refine ⟨?_, ?_, ?_, ?_, ?_, ?_, ?_⟩
  · rintro rfl
    rfl
  · rintro r rfl hmt
    simp [parse_raw_message, MessageParserFactory_create, hmt]
  · rintro r v rfl hmt hne
    have hcreate : MessageParserFactory_create r = none := by
      unfold MessageParserFactory_create
      rw [hmt]
      cases v with
      | str s =>
        have hE : s ≠ "E" := fun h => hne "E" (by simp) (by rw [h])
        have hI : s ≠ "I" := fun h => hne "I" (by simp) (by rw [h])
        have hH : s ≠ "H" := fun h => hne "H" (by simp) (by rw [h])
        have hA : s ≠ "A" := fun h => hne "A" (by simp) (by rw [h])
        simp [hE, hI, hH, hA]
      | num q => rfl
      | arr l => rfl
      | obj l => rfl
    simp [parse_raw_message, hcreate]
  · rintro r tag rfl hmt htag
    have hcreate : MessageParserFactory_create r = some .nonTradeKind := by
      unfold MessageParserFactory_create
      rw [hmt]
      rcases htag with rfl | rfl | rfl <;> simp
    simp [parse_raw_message, hcreate]
  · rintro r rfl hmt
    have hcreate : MessageParserFactory_create r = some .tradeKind := by
      unfold MessageParserFactory_create
      rw [hmt]
      simp
    simp [parse_raw_message, hcreate]
  · intro r resp c msg hresp hcode hmsg
    unfold NonTradeMessageParser_parse
    rw [hresp]
    dsimp only
    rw [hcode, hmsg]
    simp
  · intro r u ticker date exchange size price d hdata hts
    unfold TradeMessageParser_parse
    rw [hdata]
    dsimp only
    rw [hts]

/-- C9 witness: the theorem applied to the mock error frame of the
repository's own test data (`messageType "E"`, code 401) - the dispatch picks
the non-trade parser and the parsed message carries code 401. -/
theorem parse_raw_message_spec_witness :
    parse_raw_message (some [("messageType", JVal.str "E"),
      ("response", .obj [("message", .str "Authorization failed"),
        ("code", .num ⟨401, 0⟩)])]) "now" =
      .ok (some (.nonTrade 401 "Authorization failed")) := by
  have h := parse_raw_message_spec (some [("messageType", JVal.str "E"),
      ("response", .obj [("message", .str "Authorization failed"),
        ("code", .num ⟨401, 0⟩)])]) "now"
  rw [h.2.2.2.1 [("messageType", JVal.str "E"),
      ("response", .obj [("message", .str "Authorization failed"),
        ("code", .num ⟨401, 0⟩)])] "E" rfl rfl (Or.inl rfl)]
  rw [h.2.2.2.2.2.1 [("messageType", JVal.str "E"),
      ("response", .obj [("message", .str "Authorization failed"),
        ("code", .num ⟨401, 0⟩)])]
      [("message", .str "Authorization failed"), ("code", .num ⟨401, 0⟩)]
      401 "Authorization failed" rfl rfl rfl]

-- Claim C10 theorems (TradeBatch underlying list).

/-- C10: `TradeBatch.__init__` stores the trades only in `.batch` and leaves
the underlying `list` superclass empty (iterating or indexing the object as a
list yields no elements), while the overridden `__len__` reports the size of
`.batch`; and `compress` - the only operation on `TradeBatch` - reads only
`.batch` (two batches with equal `.batch` compress identically regardless of
the underlying list), returning a new object and mutating nothing, so the
empty-underlying-list state is preserved. -/
theorem TradeBatch_underlying_list_empty (ts : List TradeMessage) :
    (TradeBatch.init ts).listElems = [] ∧
    (TradeBatch.init ts).lenPy = ts.length ∧
    (∀ b b' : TradeBatch, b.batch = b'.batch →
      TradeBatch.compress b = TradeBatch.compress b') ∧
    (TradeBatch.compress (TradeBatch.init ts)).payload = ts.map pydantic_trade_json := by
  refine ⟨rfl, rfl, ?_, rfl⟩
  intro b b' h
  unfold TradeBatch.compress
  rw [h]

/-- C10 witness: the theorem applied to a one-trade batch, and its compress
conjunct applied to two batches sharing `.batch` but with different
underlying-list contents. -/
theorem TradeBatch_underlying_list_empty_witness :
    (TradeBatch.init [⟨"BTC", "d", "e", ⟨1, 0⟩, ⟨2, 0⟩, "p"⟩]).listElems = [] ∧
    (TradeBatch.init [⟨"BTC", "d", "e", ⟨1, 0⟩, ⟨2, 0⟩, "p"⟩]).lenPy = 1 ∧
    TradeBatch.compress ⟨[], [⟨"BTC", "d", "e", ⟨1, 0⟩, ⟨2, 0⟩, "p"⟩]⟩ =
      TradeBatch.compress ⟨[⟨"BTC", "d", "e", ⟨1, 0⟩, ⟨2, 0⟩, "p"⟩],
        [⟨"BTC", "d", "e", ⟨1, 0⟩, ⟨2, 0⟩, "p"⟩]⟩ := by
  have h := TradeBatch_underlying_list_empty [⟨"BTC", "d", "e", ⟨1, 0⟩, ⟨2, 0⟩, "p"⟩]
  exact ⟨h.1, h.2.1,
    h.2.2.1 ⟨[], [⟨"BTC", "d", "e", ⟨1, 0⟩, ⟨2, 0⟩, "p"⟩]⟩
      ⟨[⟨"BTC", "d", "e", ⟨1, 0⟩, ⟨2, 0⟩, "p"⟩],
        [⟨"BTC", "d", "e", ⟨1, 0⟩, ⟨2, 0⟩, "p"⟩]⟩ rfl⟩
